import Mathlib

/-
Verification of the NonLinPDEs-GPsolver repository (kernel-collocation solver
for nonlinear PDEs).  The Python sources embedded here are
  src/src/PDEs.py          (classes Nonlinear_elliptic2d, Burgers, Eikonal)
  src/src_new/PDEs_new.py      (class Burgers, new 3-block layout)
  src/src_new/Gram_matrice_new.py (Gram_matrix_assembly, construct_Theta_test)
Floating point arithmetic is idealised as exact field arithmetic (ℚ or ℝ);
NaN propagation, where a claim depends on it, is modelled with `Option`
(`none` = NaN).  The kernel-derivative formulas live in src/kernels.py, which
is not part of the sources; they are modelled from the spec (section 4.1).
-/

namespace S2P

/-! ## jnp.linalg.solve

`jnp.linalg.solve A b` returns the solution `A⁻¹ b` of the square linear
system `A x = b` when `A` is invertible (for singular `A` LAPACK produces
garbage without raising; Mathlib's junk-value `⁻¹` plays that role).  We
realise it through the adjugate so that the definition is a computable
field-arithmetic program. -/

def jnp_solveVec {n : Type*} [Fintype n] [DecidableEq n] {K : Type*} [Field K]
    (A : Matrix n n K) (b : n → K) : n → K :=
  (((A.det)⁻¹ • A.adjugate)).mulVec b

def jnp_solveMat {n m : Type*} [Fintype n] [DecidableEq n] {K : Type*} [Field K]
    (A : Matrix n n K) (B : Matrix n m K) : Matrix n m K :=
  ((A.det)⁻¹ • A.adjugate) * B

/-! ## Kernel operator

Modelled from the spec: src/kernels.py is absent from the sources; spec §4.1
says the kernel operator "returns the kernel value κ(x,y) and any required
partial derivative ∂ᵃ_x ∂ᵇ_y κ(x,y)" for the isotropic Gaussian
(one bandwidth σ, κ = exp(−‖x−y‖²/(2σ²))) and the anisotropic Gaussian
(one bandwidth per coordinate).  The fields below are these closed-form
partial derivatives; a field named `D_x1_DD_y2_kappa` is ∂_{x1} ∂²_{y2} κ,
etc.  Writing g(d) for the kernel as a function of d = x − y, the mixed
partials are (sign of each ∂_y is −1 per order): -/

structure KernelOps where
  kappa : ℝ → ℝ → ℝ → ℝ → ℝ
  D_x1_kappa : ℝ → ℝ → ℝ → ℝ → ℝ
  D_x2_kappa : ℝ → ℝ → ℝ → ℝ → ℝ
  DD_x2_kappa : ℝ → ℝ → ℝ → ℝ → ℝ
  D_y1_kappa : ℝ → ℝ → ℝ → ℝ → ℝ
  D_y2_kappa : ℝ → ℝ → ℝ → ℝ → ℝ
  DD_y2_kappa : ℝ → ℝ → ℝ → ℝ → ℝ
  Delta_y_kappa : ℝ → ℝ → ℝ → ℝ → ℝ
  D_x1_D_y1_kappa : ℝ → ℝ → ℝ → ℝ → ℝ
  D_x1_D_y2_kappa : ℝ → ℝ → ℝ → ℝ → ℝ
  D_x2_D_y2_kappa : ℝ → ℝ → ℝ → ℝ → ℝ
  D_x1_DD_y2_kappa : ℝ → ℝ → ℝ → ℝ → ℝ
  DD_x2_D_y2_kappa : ℝ → ℝ → ℝ → ℝ → ℝ
  DD_x2_DD_y2_kappa : ℝ → ℝ → ℝ → ℝ → ℝ

/-- Gaussian density factor `g(d) = exp(-d₁²/(2 s₁) - d₂²/(2 s₂))` with
`s₁ = σ₁²`, `s₂ = σ₂²` (the isotropic kernel is the case `s₁ = s₂`). -/
noncomputable def gauss (s1 s2 d1 d2 : ℝ) : ℝ :=
  Real.exp (-(d1 ^ 2) / (2 * s1) - d2 ^ 2 / (2 * s2))

/-- Modelled from the spec: the closed-form partial-derivative table of the
two-bandwidth Gaussian kernel (src/kernels.py is missing from the sources).
Each entry is the stated mixed partial of `κ(x,y) = g(x − y)`. -/
noncomputable def anisoOps (s1 s2 : ℝ) : KernelOps where
  kappa := fun x1 x2 y1 y2 => gauss s1 s2 (x1 - y1) (x2 - y2)
  D_x1_kappa := fun x1 x2 y1 y2 =>
    -((x1 - y1) / s1) * gauss s1 s2 (x1 - y1) (x2 - y2)
  D_x2_kappa := fun x1 x2 y1 y2 =>
    -((x2 - y2) / s2) * gauss s1 s2 (x1 - y1) (x2 - y2)
  DD_x2_kappa := fun x1 x2 y1 y2 =>
    ((x2 - y2) ^ 2 / s2 ^ 2 - 1 / s2) * gauss s1 s2 (x1 - y1) (x2 - y2)
  D_y1_kappa := fun x1 x2 y1 y2 =>
    ((x1 - y1) / s1) * gauss s1 s2 (x1 - y1) (x2 - y2)
  D_y2_kappa := fun x1 x2 y1 y2 =>
    ((x2 - y2) / s2) * gauss s1 s2 (x1 - y1) (x2 - y2)
  DD_y2_kappa := fun x1 x2 y1 y2 =>
    ((x2 - y2) ^ 2 / s2 ^ 2 - 1 / s2) * gauss s1 s2 (x1 - y1) (x2 - y2)
  Delta_y_kappa := fun x1 x2 y1 y2 =>
    (((x1 - y1) ^ 2 / s1 ^ 2 - 1 / s1) + ((x2 - y2) ^ 2 / s2 ^ 2 - 1 / s2)) *
      gauss s1 s2 (x1 - y1) (x2 - y2)
  D_x1_D_y1_kappa := fun x1 x2 y1 y2 =>
    (1 / s1 - (x1 - y1) ^ 2 / s1 ^ 2) * gauss s1 s2 (x1 - y1) (x2 - y2)
  D_x1_D_y2_kappa := fun x1 x2 y1 y2 =>
    -((x1 - y1) * (x2 - y2) / (s1 * s2)) * gauss s1 s2 (x1 - y1) (x2 - y2)
  D_x2_D_y2_kappa := fun x1 x2 y1 y2 =>
    (1 / s2 - (x2 - y2) ^ 2 / s2 ^ 2) * gauss s1 s2 (x1 - y1) (x2 - y2)
  D_x1_DD_y2_kappa := fun x1 x2 y1 y2 =>
    -((x1 - y1) / s1) * ((x2 - y2) ^ 2 / s2 ^ 2 - 1 / s2) *
      gauss s1 s2 (x1 - y1) (x2 - y2)
  DD_x2_D_y2_kappa := fun x1 x2 y1 y2 =>
    -((3 * (x2 - y2) / s2 ^ 2 - (x2 - y2) ^ 3 / s2 ^ 3)) *
      gauss s1 s2 (x1 - y1) (x2 - y2)
  DD_x2_DD_y2_kappa := fun x1 x2 y1 y2 =>
    (3 / s2 ^ 2 - 6 * (x2 - y2) ^ 2 / s2 ^ 3 + (x2 - y2) ^ 4 / s2 ^ 4) *
      gauss s1 s2 (x1 - y1) (x2 - y2)

/-- The two supported kernel choices with their parameters, as dispatched by
the `if kernel == "Gaussian" ... elif kernel == "anisotropic_Gaussian"` lines
of Gram_matrice_new.py. -/
inductive KernelSpec where
  | Gaussian (sigma : ℝ)
  | anisotropic_Gaussian (sigma1 sigma2 : ℝ)

noncomputable def kernelOf : KernelSpec → KernelOps
  | .Gaussian sigma => anisoOps (sigma ^ 2) (sigma ^ 2)
  | .anisotropic_Gaussian sigma1 sigma2 => anisoOps (sigma1 ^ 2) (sigma2 ^ 2)

/-- PDE family tag passed as `eqn` to the assembler. -/
inductive Eqn where
  | Nonlinear_elliptic
  | Burgers
  | Eikonal
deriving DecidableEq

/-! ## Gram_matrice_new.py

The assembler builds an `(3·N_domain + N_boundary)`-square block matrix for
the Burgers family.  Matrices are modelled as total functions `ℕ → ℕ → ℝ`;
entries outside the block layout are `0` (the `jnp.zeros` background).
Points are given as total functions `ℕ → ℝ × ℝ` together with the counts
`Nd`, `Nb`; `Xdb` is the concatenation `[X_domain; X_boundary]`. -/

/-- Entry function of the Burgers Gram matrix of `Gram_matrix_assembly`
(Gram_matrice_new.py, `if eqn == "Burgers"` branch, lines 52-130).  Each
case is one `Theta.at[...].set(...)` block write; the `(1,0)`, `(2,0)` and
`(2,1)` blocks are the transposed mirror of the `(0,1)`, `(0,2)`, `(1,2)`
blocks, exactly as in the source. -/
noncomputable def burgersTheta (K : KernelOps) (nu : ℝ) (Nd Nb : ℕ)
    (Xd Xb : ℕ → ℝ × ℝ) : ℕ → ℕ → ℝ :=
  fun i j =>
    let Xdb : ℕ → ℝ × ℝ := fun k => if k < Nd then Xd k else Xb (k - Nd)
    if i < Nd ∧ j < Nd then
      K.D_x1_D_y1_kappa (Xd i).1 (Xd i).2 (Xd j).1 (Xd j).2
        - 2 * nu * K.D_x1_DD_y2_kappa (Xd i).1 (Xd i).2 (Xd j).1 (Xd j).2
        + nu ^ 2 * K.DD_x2_DD_y2_kappa (Xd i).1 (Xd i).2 (Xd j).1 (Xd j).2
    else if i < Nd ∧ Nd ≤ j ∧ j < 2 * Nd then
      K.D_x1_D_y2_kappa (Xd i).1 (Xd i).2 (Xd (j - Nd)).1 (Xd (j - Nd)).2
        - nu * K.DD_x2_D_y2_kappa (Xd i).1 (Xd i).2 (Xd (j - Nd)).1 (Xd (j - Nd)).2
    else if Nd ≤ i ∧ i < 2 * Nd ∧ j < Nd then
      K.D_x1_D_y2_kappa (Xd j).1 (Xd j).2 (Xd (i - Nd)).1 (Xd (i - Nd)).2
        - nu * K.DD_x2_D_y2_kappa (Xd j).1 (Xd j).2 (Xd (i - Nd)).1 (Xd (i - Nd)).2
    else if Nd ≤ i ∧ i < 2 * Nd ∧ Nd ≤ j ∧ j < 2 * Nd then
      K.D_x2_D_y2_kappa (Xd (i - Nd)).1 (Xd (i - Nd)).2 (Xd (j - Nd)).1 (Xd (j - Nd)).2
    else if 2 * Nd ≤ i ∧ i < 3 * Nd + Nb ∧ 2 * Nd ≤ j ∧ j < 3 * Nd + Nb then
      K.kappa (Xdb (i - 2 * Nd)).1 (Xdb (i - 2 * Nd)).2
        (Xdb (j - 2 * Nd)).1 (Xdb (j - 2 * Nd)).2
    else if i < Nd ∧ 2 * Nd ≤ j ∧ j < 3 * Nd + Nb then
      K.D_x1_kappa (Xd i).1 (Xd i).2 (Xdb (j - 2 * Nd)).1 (Xdb (j - 2 * Nd)).2
        - nu * K.DD_x2_kappa (Xd i).1 (Xd i).2 (Xdb (j - 2 * Nd)).1 (Xdb (j - 2 * Nd)).2
    else if 2 * Nd ≤ i ∧ i < 3 * Nd + Nb ∧ j < Nd then
      K.D_x1_kappa (Xd j).1 (Xd j).2 (Xdb (i - 2 * Nd)).1 (Xdb (i - 2 * Nd)).2
        - nu * K.DD_x2_kappa (Xd j).1 (Xd j).2 (Xdb (i - 2 * Nd)).1 (Xdb (i - 2 * Nd)).2
    else if Nd ≤ i ∧ i < 2 * Nd ∧ 2 * Nd ≤ j ∧ j < 3 * Nd + Nb then
      K.D_x2_kappa (Xd (i - Nd)).1 (Xd (i - Nd)).2 (Xdb (j - 2 * Nd)).1 (Xdb (j - 2 * Nd)).2
    else if 2 * Nd ≤ i ∧ i < 3 * Nd + Nb ∧ Nd ≤ j ∧ j < 2 * Nd then
      K.D_x2_kappa (Xd (j - Nd)).1 (Xd (j - Nd)).2 (Xdb (i - 2 * Nd)).1 (Xdb (i - 2 * Nd)).2
    else 0

/-- `Gram_matrix_assembly` of Gram_matrice_new.py.  Only the `"Burgers"`
branch exists in the source; for any other `eqn` the Python function falls
off the end of the `if` and implicitly returns `None`, modelled as
`Option.none`. -/
noncomputable def Gram_matrix_assembly (Xd Xb : ℕ → ℝ × ℝ) (Nd Nb : ℕ)
    (eqn : Eqn) (kernel : KernelSpec) (nu : ℝ) : Option (ℕ → ℕ → ℝ) :=
  match eqn with
  | .Burgers => some (burgersTheta (kernelOf kernel) nu Nd Nb Xd Xb)
  | _ => none

/-- Entry function of the `"Nonlinear_elliptic"` branch of
`construct_Theta_test` (N_test × (2·Nd + Nb)). -/
noncomputable def ellipticThetaTest (K : KernelOps) (Nd Nb : ℕ)
    (Xt Xd Xb : ℕ → ℝ × ℝ) : ℕ → ℕ → ℝ :=
  fun i j =>
    let Xdb : ℕ → ℝ × ℝ := fun k => if k < Nd then Xd k else Xb (k - Nd)
    if j < Nd then
      K.Delta_y_kappa (Xt i).1 (Xt i).2 (Xd j).1 (Xd j).2
    else if j < 2 * Nd + Nb then
      K.kappa (Xt i).1 (Xt i).2 (Xdb (j - Nd)).1 (Xdb (j - Nd)).2
    else 0

/-- Entry function of the `"Burgers"` branch of `construct_Theta_test`
(N_test × (3·Nd + Nb)). -/
noncomputable def burgersThetaTest (K : KernelOps) (nu : ℝ) (Nd Nb : ℕ)
    (Xt Xd Xb : ℕ → ℝ × ℝ) : ℕ → ℕ → ℝ :=
  fun i j =>
    let Xdb : ℕ → ℝ × ℝ := fun k => if k < Nd then Xd k else Xb (k - Nd)
    if j < Nd then
      K.D_y1_kappa (Xt i).1 (Xt i).2 (Xd j).1 (Xd j).2
        - nu * K.DD_y2_kappa (Xt i).1 (Xt i).2 (Xd j).1 (Xd j).2
    else if j < 2 * Nd then
      K.D_y2_kappa (Xt i).1 (Xt i).2 (Xd (j - Nd)).1 (Xd (j - Nd)).2
    else if j < 3 * Nd + Nb then
      K.kappa (Xt i).1 (Xt i).2 (Xdb (j - 2 * Nd)).1 (Xdb (j - 2 * Nd)).2
    else 0

/-- `construct_Theta_test` of Gram_matrice_new.py.  The source handles
`"Nonlinear_elliptic"` and `"Burgers"`; for `"Eikonal"` it falls off the end
and implicitly returns `None`. -/
noncomputable def construct_Theta_test (Xt Xd Xb : ℕ → ℝ × ℝ) (Nd Nb : ℕ)
    (eqn : Eqn) (kernel : KernelSpec) (nu : ℝ) : Option (ℕ → ℕ → ℝ) :=
  match eqn with
  | .Nonlinear_elliptic => some (ellipticThetaTest (kernelOf kernel) Nd Nb Xt Xd Xb)
  | .Burgers => some (burgersThetaTest (kernelOf kernel) nu Nd Nb Xt Xd Xb)
  | .Eikonal => none

/-! ## PDEs_new.py, class Burgers: Gram_matrix (regularizer) -/

inductive NuggetType where
  | adaptive
  | identity
  | nonugget

/-- Result state written by `Burgers.Gram_matrix`: the regularized matrix
`self.Theta` and, for the adaptive policy, the stored `self.ratio` list. -/
structure GramResult where
  Theta : ℕ → ℕ → ℝ
  ratio : List ℝ

/-- Trace of the diagonal slice `Theta[a : a+len, a : a+len]`. -/
noncomputable def sliceTrace (Theta : ℕ → ℕ → ℝ) (a len : ℕ) : ℝ :=
  ∑ k ∈ Finset.range len, Theta (a + k) (a + k)

/-- `Burgers.Gram_matrix` of PDEs_new.py (lines 67-108).  The assembler is
called with `eqn="Burgers"` and the default `nu = 0.02` (the method does not
forward `self.nu`).  Under the adaptive policy the code computes
`trace1 = tr Θ[:Nd,:Nd]`, `trace2 = tr Θ[Nd:2Nd,Nd:2Nd]`,
`trace4 = tr Θ[3Nd:,3Nd:]`, stores `self.ratio = [trace1/trace4,
trace2/trace4]` and adds `nugget · diag(concat(ratio₀·1(Nd), ratio₁·1(Nd),
1(Nd+Nb)))`.  The identity policy adds `nugget · I`. -/
noncomputable def Burgers_Gram_matrix (Nd Nb : ℕ) (Xd Xb : ℕ → ℝ × ℝ)
    (kernel : KernelSpec) (nugget : ℝ) (nugget_type : NuggetType) : GramResult :=
  let Theta := (Gram_matrix_assembly Xd Xb Nd Nb Eqn.Burgers kernel (1 / 50)).getD
    (fun _ _ => 0)
  match nugget_type with
  | .adaptive =>
    let trace1 := sliceTrace Theta 0 Nd
    let trace2 := sliceTrace Theta Nd Nd
    let trace4 := sliceTrace Theta (3 * Nd) Nb
    let ratio : List ℝ := [trace1 / trace4, trace2 / trace4]
    let temp : List ℝ :=
      List.replicate Nd (trace1 / trace4) ++ List.replicate Nd (trace2 / trace4) ++
        List.replicate (Nd + Nb) 1
    { Theta := fun i j => Theta i j + nugget * (if i = j then temp.getD i 0 else 0)
      ratio := ratio }
  | .identity =>
    { Theta := fun i j =>
        Theta i j + nugget * (if i = j ∧ i < 3 * Nd + Nb then 1 else 0)
      ratio := [] }
  | .nonugget => { Theta := Theta, ratio := [] }

/-! ## Gauss-Newton Hessians of the Burgers classes

`Burgers.Hessian_GN` in PDEs_new.py (lines 132-153) builds the block
Jacobian `mtx` of the linearized residual and returns
`2 * (L⁻¹ mtx)ᵀ (L⁻¹ mtx)`; the older `Burgers.Hessian_GN` in PDEs.py
(lines 394-419) does the same with the 4-block layout that carries the
`ν·I` diffusion column.  Exact arithmetic over ℚ. -/

/-- Jacobian block matrix `mtx` of PDEs_new.py `Hessian_GN`
(size (3·Nd+Nb) × 2·Nd); `v0 = z[:Nd]`, `v2 = z[Nd:2Nd]`. -/
def burgersJacNew (Nd : ℕ) (alpha : ℚ) (z : ℕ → ℚ) : ℕ → ℕ → ℚ :=
  fun i j =>
    if i < Nd ∧ j < Nd then -alpha * (if i = j then z (Nd + i) else 0)
    else if i < Nd ∧ Nd ≤ j ∧ j < 2 * Nd then
      -alpha * (if i = j - Nd then z i else 0)
    else if Nd ≤ i ∧ i < 2 * Nd ∧ Nd ≤ j ∧ j < 2 * Nd then
      (if i - Nd = j - Nd then 1 else 0)
    else if 2 * Nd ≤ i ∧ i < 3 * Nd ∧ j < Nd then
      (if i - 2 * Nd = j then 1 else 0)
    else 0

/-- Jacobian block matrix `mtx` of PDEs.py `Burgers.Hessian_GN`
(size (4·Nd+Nb) × 3·Nd), whose first block row is
`[-α·diag v2, -α·diag v0, ν·I]`. -/
def burgersJacOld (Nd : ℕ) (alpha nu : ℚ) (z : ℕ → ℚ) : ℕ → ℕ → ℚ :=
  fun i j =>
    if i < Nd ∧ j < Nd then -alpha * (if i = j then z (Nd + i) else 0)
    else if i < Nd ∧ Nd ≤ j ∧ j < 2 * Nd then
      -alpha * (if i = j - Nd then z i else 0)
    else if i < Nd ∧ 2 * Nd ≤ j ∧ j < 3 * Nd then
      nu * (if i = j - 2 * Nd then 1 else 0)
    else if Nd ≤ i ∧ i < 2 * Nd ∧ Nd ≤ j ∧ j < 2 * Nd then
      (if i - Nd = j - Nd then 1 else 0)
    else if 2 * Nd ≤ i ∧ i < 3 * Nd ∧ 2 * Nd ≤ j ∧ j < 3 * Nd then
      (if i - 2 * Nd = j - 2 * Nd then 1 else 0)
    else if 3 * Nd ≤ i ∧ i < 4 * Nd ∧ j < Nd then
      (if i - 3 * Nd = j then 1 else 0)
    else 0

/-- The `mtx` of PDEs_new.py `Hessian_GN` as a typed matrix. -/
def JmatNew (Nd Nb : ℕ) (alpha : ℚ) (z : ℕ → ℚ) :
    Matrix (Fin (3 * Nd + Nb)) (Fin (2 * Nd)) ℚ :=
  Matrix.of fun i j => burgersJacNew Nd alpha z i.val j.val

/-- The `mtx` of PDEs.py `Burgers.Hessian_GN` as a typed matrix. -/
def JmatOld (Nd Nb : ℕ) (alpha nu : ℚ) (z : ℕ → ℚ) :
    Matrix (Fin (4 * Nd + Nb)) (Fin (3 * Nd)) ℚ :=
  Matrix.of fun i j => burgersJacOld Nd alpha nu z i.val j.val

/-- `Burgers.Hessian_GN` of PDEs_new.py: `ss = jnp.linalg.solve(L, mtx)`,
returning `2 · ssᵀ ss`. -/
def Hessian_GN_new (Nd Nb : ℕ) (alpha : ℚ) (z : ℕ → ℚ)
    (L : Matrix (Fin (3 * Nd + Nb)) (Fin (3 * Nd + Nb)) ℚ) :
    Matrix (Fin (2 * Nd)) (Fin (2 * Nd)) ℚ :=
  let ss := jnp_solveMat L (JmatNew Nd Nb alpha z)
  (2 : ℚ) • (ss.transpose * ss)

/-- `Burgers.Hessian_GN` of PDEs.py (old 4-block layout). -/
def Hessian_GN_old (Nd Nb : ℕ) (alpha nu : ℚ) (z : ℕ → ℚ)
    (L : Matrix (Fin (4 * Nd + Nb)) (Fin (4 * Nd + Nb)) ℚ) :
    Matrix (Fin (3 * Nd)) (Fin (3 * Nd)) ℚ :=
  let ss := jnp_solveMat L (JmatOld Nd Nb alpha nu z)
  (2 : ℚ) • (ss.transpose * ss)

/-! ## PDEs_new.py, class Burgers: extend_sol -/

/-- `Burgers.extend_sol` of PDEs_new.py (lines 200-214): builds the test
cross-covariance via `construct_Theta_test(..., eqn="Burgers")` (with the
assembler default `nu = 0.02`), computes
`temp = solve(Lᵀ, solve(L, sol_vec))` and stores `Theta_test @ temp`. -/
noncomputable def Burgers_extend_sol (Nt Nd Nb : ℕ) (Xt Xd Xb : ℕ → ℝ × ℝ)
    (kernel : KernelSpec)
    (L : Matrix (Fin (3 * Nd + Nb)) (Fin (3 * Nd + Nb)) ℝ)
    (sol_vec : Fin (3 * Nd + Nb) → ℝ) : Option (Fin Nt → ℝ) :=
  match construct_Theta_test Xt Xd Xb Nd Nb Eqn.Burgers kernel (1 / 50) with
  | none => none
  | some T =>
    let Theta_test : Matrix (Fin Nt) (Fin (3 * Nd + Nb)) ℝ :=
      Matrix.of fun i j => T i.val j.val
    let temp := jnp_solveVec L.transpose (jnp_solveVec L sol_vec)
    some (Theta_test.mulVec temp)

/-! ## PDEs.py, class Nonlinear_elliptic2d: loss -/

/-- The raw residual vector `zz` stacked by `Nonlinear_elliptic2d.loss`
(PDEs.py lines 111-112): `jnp.append(α·z**m − rhs_f, z)` then
`jnp.append(·, bdy_g)` — the third block is the boundary data `bdy_g`
itself. -/
def elliptic_residual (Nd Nb : ℕ) (alpha : ℚ) (m : ℕ)
    (rhs_f : Fin Nd → ℚ) (bdy_g : Fin Nb → ℚ) (z : Fin Nd → ℚ) :
    Fin (Nd + Nd + Nb) → ℚ :=
  Fin.append (Fin.append (fun i => alpha * z i ^ m - rhs_f i) z) bdy_g

/-- `Nonlinear_elliptic2d.loss` (PDEs.py lines 109-114): stack the raw
residual, solve against the Cholesky factor `L` and return the squared
norm. -/
def elliptic_loss (Nd Nb : ℕ)
    (L : Matrix (Fin (Nd + Nd + Nb)) (Fin (Nd + Nd + Nb)) ℚ)
    (alpha : ℚ) (m : ℕ) (rhs_f : Fin Nd → ℚ) (bdy_g : Fin Nb → ℚ)
    (z : Fin Nd → ℚ) : ℚ :=
  let w := jnp_solveVec L (elliptic_residual Nd Nb alpha m rhs_f bdy_g z)
  Matrix.dotProduct w w

/-- The raw residual vector as the claim words it, for comparison with the
code: it stacks the PDE-operator residual `α·z^m − rhs_f`, the field value
`z`, and "the boundary residual (field − bdy_g)".  The collocation scheme
carries no boundary unknown: the candidate field at the boundary points is
the constrained value `bdy_g` itself, so this block is `bdy_g − bdy_g = 0`.
The code instead stacks the boundary data `bdy_g`. -/
def elliptic_residual_claim (Nd Nb : ℕ) (alpha : ℚ) (m : ℕ)
    (rhs_f : Fin Nd → ℚ) (bdy_g : Fin Nb → ℚ) (z : Fin Nd → ℚ) :
    Fin (Nd + Nd + Nb) → ℚ :=
  Fin.append (Fin.append (fun i => alpha * z i ^ m - rhs_f i) z)
    (fun i => bdy_g i - bdy_g i)

/-! ## NaN-aware scalars

`RFq` models a floating-point scalar whose value is either a finite number
(idealised as ℚ) or NaN (`none`); arithmetic propagates NaN, `jnp.isnan`
tests it. -/

def RFq := Option ℚ

def rfAdd : RFq → RFq → RFq
  | some x, some y => some (x + y)
  | _, _ => none

def rfSub : RFq → RFq → RFq
  | some x, some y => some (x - y)
  | _, _ => none

def rfMul : RFq → RFq → RFq
  | some x, some y => some (x * y)
  | _, _ => none

def rfPow (a : RFq) (n : ℕ) : RFq := Option.map (fun x => x ^ n) a

/-- `jnp.isnan`. -/
def isnan (a : RFq) : Bool := a.isNone

def vSub (v w : List RFq) : List RFq := List.zipWith rfSub v w

def vSmul (c : RFq) (v : List RFq) : List RFq := v.map (rfMul c)

def vPow (v : List RFq) (n : ℕ) : List RFq := v.map (fun a => rfPow a n)

/-! ## PDEs.py, class Nonlinear_elliptic2d: GN_method

`GN_method(max_iter, step_size, initial_sol, print_hist)` draws the initial
solution only when `initial_sol == "rdm"`; the body then always reads `sol`.
Python raises `UnboundLocalError` at `self.init_sol = sol` whenever the
caller passes anything else (an array never compares equal to `"rdm"`), so
the embedding returns an exception in that case.  The loop runs
`iter_step = 1 .. max_iter`, each step solving
`Hessian_GN(sol, sol) · Δ = grad_loss(sol)` and updating
`sol ← sol − step_size · Δ`; the combination of autodiff gradient, Hessian
and `jnp.linalg.solve` is the supplied total map `solveStep`, and the loss
evaluation is the supplied map `lossF` (both are other methods of the
class; neither can raise).  A NaN loss is reported (the printed
"[Error] Loss is nan" message, recorded here as the flagged iteration
index) but the commented-out `sys.exit()` means execution continues. -/

inductive InitialSol where
  | rdm
  | supplied (v : List RFq)

/-- Python exceptions that the embedded methods can surface. -/
inductive PyExc where
  | systemExit
  | unboundLocal
deriving DecidableEq

/-- State written by `GN_method` on the object (`self.init_sol`,
`self.loss_hist`, the printed NaN diagnostics, `self.sol_vec`,
`self.sol_sampled_pts`). -/
structure GNResult where
  init_sol : List RFq
  loss_hist : List RFq
  nan_flags : List ℕ
  sol_vec : List RFq
  sol_sampled_pts : List RFq

/-- One Gauss-Newton update `sol − step_size * solve(Hessian, grad)`. -/
def GN_update (solveStep : List RFq → List RFq) (step_size : RFq)
    (sol : List RFq) : List RFq :=
  vSub sol (vSmul step_size (solveStep sol))

/-- One pass of the `for iter_step in range(1, max_iter + 1)` body:
update the iterate, evaluate the loss, flag it if NaN, append it to the
history. -/
def GN_body (lossF : List RFq → RFq) (solveStep : List RFq → List RFq)
    (step_size : RFq) (st : List RFq × List RFq × List ℕ) (k : ℕ) :
    List RFq × List RFq × List ℕ :=
  let sol := GN_update solveStep step_size st.1
  let loss_now := lossF sol
  (sol, st.2.1 ++ [loss_now], if isnan loss_now then st.2.2 ++ [k] else st.2.2)

/-- `Nonlinear_elliptic2d.GN_method` (PDEs.py lines 131-169). -/
def GN_method (lossF : List RFq → RFq) (solveStep : List RFq → List RFq)
    (alpha : RFq) (m : ℕ) (rhs_f bdy_g : List RFq)
    (max_iter : ℕ) (step_size : RFq) (initial_sol : InitialSol)
    (rng : List RFq) : Except PyExc GNResult :=
  match initial_sol with
  | .supplied _ => .error .unboundLocal
  | .rdm =>
    let sol0 := rng
    let loss0 := lossF sol0
    let st0 : List RFq × List RFq × List ℕ :=
      (sol0, [loss0], if isnan loss0 then [0] else [])
    let st := (List.range' 1 max_iter).foldl (GN_body lossF solveStep step_size) st0
    let sol := st.1
    let sol_vec := (vSub (vSmul alpha (vPow sol m)) rhs_f) ++ sol ++ bdy_g
    .ok { init_sol := sol0, loss_hist := st.2.1, nan_flags := st.2.2,
          sol_vec := sol_vec, sol_sampled_pts := sol }

/-- The `k`-th Gauss-Newton iterate starting from the draw `sol0`. -/
def GN_iter (solveStep : List RFq → List RFq) (step_size : RFq)
    (sol0 : List RFq) : ℕ → List RFq
  | 0 => sol0
  | k + 1 => GN_update solveStep step_size (GN_iter solveStep step_size sol0 k)

/-! ## Gram_Cholesky

`jnp.linalg.cholesky` (XLA/LAPACK potrf semantics): for a square input the
call always returns normally; when the matrix is not numerically
positive-definite — potrf meets a non-positive pivot — the returned array is
filled with NaN instead of an exception being raised.  On success it returns
the lower-triangular factor.  `cholAux A j` is the state of the standard
column-by-column factorization after the first `j` columns. -/

noncomputable def cholAux (A : ℕ → ℕ → ℝ) : ℕ → ℕ → ℕ → ℝ
  | 0 => fun _ _ => 0
  | j + 1 => fun r c =>
      let L := cholAux A j
      let d := Real.sqrt (A j j - ∑ k ∈ Finset.range j, (L j k) ^ 2)
      if c = j then
        if r < j then 0
        else if r = j then d
        else (A r j - ∑ k ∈ Finset.range j, L r k * L j k) / d
      else L r c

/-- The `j`-th pivot met by the factorization. -/
noncomputable def cholPivot (A : ℕ → ℕ → ℝ) (j : ℕ) : ℝ :=
  A j j - ∑ k ∈ Finset.range j, (cholAux A j j k) ^ 2

open scoped Classical in
/-- `jnp.linalg.cholesky` on an `n × n` input: the factor when every pivot
is positive, the NaN-filled array otherwise.  It never raises. -/
noncomputable def jnp_cholesky (n : ℕ) (A : ℕ → ℕ → ℝ) : ℕ → ℕ → Option ℝ :=
  if ∀ j < n, 0 < cholPivot A j then fun r c => some (cholAux A n r c)
  else fun _ _ => none

/-- `Gram_Cholesky` (PDEs.py lines 102-107 and its copies): a
`try/except` around `self.L = jnp.linalg.cholesky(self.Theta)` whose
`except` branch prints and calls `sys.exit()`.  Because the wrapped call is
total, the `except` branch is unreachable: the match below is the direct
embedding of the `try`. -/
noncomputable def Gram_Cholesky (n : ℕ) (Theta : ℕ → ℕ → ℝ) :
    Except PyExc (ℕ → ℕ → Option ℝ) :=
  match (Except.ok (jnp_cholesky n Theta) : Except PyExc (ℕ → ℕ → Option ℝ)) with
  | .ok L => .ok L
  | .error _ => .error .systemExit

/-! ## Claims -/

theorem jnp_solveVec_eq_inv {n : Type*} [Fintype n] [DecidableEq n] {K : Type*} [Field K]
    (A : Matrix n n K) (b : n → K) : jnp_solveVec A b = A⁻¹.mulVec b := by
  rw [jnp_solveVec, Matrix.inv_def, Ring.inverse_eq_inv]

theorem jnp_solveMat_eq_inv {n m : Type*} [Fintype n] [DecidableEq n] {K : Type*} [Field K]
    (A : Matrix n n K) (B : Matrix n m K) : jnp_solveMat A B = A⁻¹ * B := by
  rw [jnp_solveMat, Matrix.inv_def, Ring.inverse_eq_inv]

theorem jnp_solveVec_mulVec {n : Type*} [Fintype n] [DecidableEq n] {K : Type*} [Field K]
    (A : Matrix n n K) (w : n → K) (h : IsUnit A.det) :
    jnp_solveVec A (A.mulVec w) = w := by
  rw [jnp_solveVec_eq_inv, Matrix.mulVec_mulVec, Matrix.nonsing_inv_mul A h,
    Matrix.one_mulVec]

theorem jnp_solveVec_one {n : Type*} [Fintype n] [DecidableEq n] {K : Type*} [Field K]
    (b : n → K) : jnp_solveVec (1 : Matrix n n K) b = b := by
  simp [jnp_solveVec, Matrix.det_one, Matrix.adjugate_one, Matrix.one_mulVec]

/-- C3: the claim asks that `Gram_matrix_assembly` / `construct_Theta_test`
fail immediately with a descriptive error on an unsupported `eqn` tag and
never silently return no matrix.  The code instead falls off the end of its
`if` chain and returns `None`: for `eqn="Nonlinear_elliptic"` or
`eqn="Eikonal"` the assembler yields `none`, and `construct_Theta_test`
yields `none` for `eqn="Eikonal"`, on a concrete one-point input. -/
theorem C3_unsupported_eqn_returns_none :
    Gram_matrix_assembly (fun _ => ((0 : ℝ), (0 : ℝ))) (fun _ => ((1 : ℝ), (1 : ℝ)))
      1 1 Eqn.Nonlinear_elliptic (KernelSpec.Gaussian 1) (1 / 50) = none ∧
    Gram_matrix_assembly (fun _ => ((0 : ℝ), (0 : ℝ))) (fun _ => ((1 : ℝ), (1 : ℝ)))
      1 1 Eqn.Eikonal (KernelSpec.Gaussian 1) (1 / 50) = none ∧
    construct_Theta_test (fun _ => ((0 : ℝ), (0 : ℝ))) (fun _ => ((0 : ℝ), (0 : ℝ)))
      (fun _ => ((1 : ℝ), (1 : ℝ))) 1 1 Eqn.Eikonal (KernelSpec.Gaussian 1) (1 / 50)
      = none :=
  ⟨rfl, rfl, rfl⟩

/-- C4: the claim says that when the caller passes a supplied initial
solution vector instead of the `"rdm"` tag, the iteration starts from that
vector rather than failing.  In the code `sol` is assigned only under
`initial_sol == "rdm"`, so a supplied vector leaves `sol` unbound and
`self.init_sol = sol` raises `UnboundLocalError`: `GN_method` fails instead
of starting from the supplied vector. -/
theorem C4_supplied_initial_sol_raises :
    GN_method (fun _ => some 0) id (some 1) 3 [] [] 2 (some 1)
      (InitialSol.supplied [some 0]) [] = Except.error PyExc.unboundLocal :=
  rfl

/-- C1: the claim says that on a Gram matrix that is not numerically
positive-definite (nugget 0, policy none, duplicate collocation points —
here the singular all-ones 2×2 value block of two identical points)
`Gram_Cholesky` raises and never stores a NaN factor.  In fact
`jnp.linalg.cholesky` does not raise — the dead `except sys.exit()` branch
is never taken — and `Gram_Cholesky` returns normally with the NaN-filled
factor stored in `self.L`. -/
theorem C1_singular_gram_stores_nan_factor :
    Gram_Cholesky 2 (fun i j => if i < 2 ∧ j < 2 then (1 : ℝ) else 0) =
      Except.ok (fun _ _ => none) := by
  have hpiv : cholPivot (fun i j => if i < 2 ∧ j < 2 then (1 : ℝ) else 0) 1 = 0 := by
    simp [cholPivot, cholAux, Real.sqrt_one]
  have hnot : ¬ ∀ j < 2, 0 < cholPivot (fun i j => if i < 2 ∧ j < 2 then (1 : ℝ) else 0) j := by
    intro h
    have h1 := h 1 (by norm_num)
    rw [hpiv] at h1
    exact lt_irrefl 0 h1
  unfold Gram_Cholesky jnp_cholesky
  rw [if_neg hnot]

/-- C8: `extend_sol` stores exactly the posterior mean
`Theta_test · (Lᵀ)⁻¹ · L⁻¹ · sol_vec`, where `Theta_test` is the test
cross-covariance built by `construct_Theta_test` between the query points
and the collocation set. -/
theorem C8_extend_sol_posterior_mean (Nt Nd Nb : ℕ) (Xt Xd Xb : ℕ → ℝ × ℝ)
    (kernel : KernelSpec)
    (L : Matrix (Fin (3 * Nd + Nb)) (Fin (3 * Nd + Nb)) ℝ)
    (sol_vec : Fin (3 * Nd + Nb) → ℝ) :
    Burgers_extend_sol Nt Nd Nb Xt Xd Xb kernel L sol_vec =
      some ((Matrix.of fun i j =>
          burgersThetaTest (kernelOf kernel) (1 / 50) Nd Nb Xt Xd Xb i.val j.val).mulVec
        ((L.transpose)⁻¹.mulVec (L⁻¹.mulVec sol_vec))) := by
  unfold Burgers_extend_sol construct_Theta_test
  simp only [jnp_solveVec_eq_inv]

/-- Any matrix of the shape `2 · Mᵀ M` is symmetric and positive
semi-definite. -/
theorem two_gram_symm_psd {a b : ℕ} (M : Matrix (Fin a) (Fin b) ℚ) :
    ((2 : ℚ) • (M.transpose * M)).transpose = (2 : ℚ) • (M.transpose * M) ∧
    ∀ v : Fin b → ℚ,
      0 ≤ Matrix.dotProduct v (((2 : ℚ) • (M.transpose * M)).mulVec v) := by
  constructor
  · rw [Matrix.transpose_smul, Matrix.transpose_mul, Matrix.transpose_transpose]
  · intro v
    rw [Matrix.smul_mulVec_assoc, Matrix.dotProduct_smul, ← Matrix.mulVec_mulVec,
      Matrix.dotProduct_mulVec, Matrix.vecMul_transpose]
    have hnn : 0 ≤ Matrix.dotProduct (M.mulVec v) (M.mulVec v) := by
      apply Finset.sum_nonneg
      intro i _
      exact mul_self_nonneg _
    have h2 : (0 : ℚ) ≤ 2 := by norm_num
    rw [smul_eq_mul]
    exact mul_nonneg h2 hnn

/-- C9: for every solution vector `z` and factor `L`, both Burgers
`Hessian_GN` implementations equal `2 · (L⁻¹ J)ᵀ (L⁻¹ J)` for their block
Jacobian `J` assembled from `z`, hence are symmetric and positive
semi-definite. -/
theorem C9_hessian_gn_gram_form (Nd Nb : ℕ) (alpha nu : ℚ) (z : ℕ → ℚ)
    (Lnew : Matrix (Fin (3 * Nd + Nb)) (Fin (3 * Nd + Nb)) ℚ)
    (Lold : Matrix (Fin (4 * Nd + Nb)) (Fin (4 * Nd + Nb)) ℚ) :
    (Hessian_GN_new Nd Nb alpha z Lnew =
        (2 : ℚ) • ((Lnew⁻¹ * JmatNew Nd Nb alpha z).transpose *
          (Lnew⁻¹ * JmatNew Nd Nb alpha z)) ∧
      (Hessian_GN_new Nd Nb alpha z Lnew).transpose = Hessian_GN_new Nd Nb alpha z Lnew ∧
      ∀ v, 0 ≤ Matrix.dotProduct v ((Hessian_GN_new Nd Nb alpha z Lnew).mulVec v)) ∧
    (Hessian_GN_old Nd Nb alpha nu z Lold =
        (2 : ℚ) • ((Lold⁻¹ * JmatOld Nd Nb alpha nu z).transpose *
          (Lold⁻¹ * JmatOld Nd Nb alpha nu z)) ∧
      (Hessian_GN_old Nd Nb alpha nu z Lold).transpose = Hessian_GN_old Nd Nb alpha nu z Lold ∧
      ∀ v, 0 ≤ Matrix.dotProduct v ((Hessian_GN_old Nd Nb alpha nu z Lold).mulVec v)) := by
  have hnew : Hessian_GN_new Nd Nb alpha z Lnew =
      (2 : ℚ) • ((jnp_solveMat Lnew (JmatNew Nd Nb alpha z)).transpose *
        (jnp_solveMat Lnew (JmatNew Nd Nb alpha z))) := rfl
  have hold : Hessian_GN_old Nd Nb alpha nu z Lold =
      (2 : ℚ) • ((jnp_solveMat Lold (JmatOld Nd Nb alpha nu z)).transpose *
        (jnp_solveMat Lold (JmatOld Nd Nb alpha nu z))) := rfl
  constructor
  · refine ⟨?_, ?_, ?_⟩
    · rw [hnew, jnp_solveMat_eq_inv]
    · rw [hnew]
      exact (two_gram_symm_psd _).1
    · rw [hnew]
      exact (two_gram_symm_psd _).2
  · refine ⟨?_, ?_, ?_⟩
    · rw [hold, jnp_solveMat_eq_inv]
    · rw [hold]
      exact (two_gram_symm_psd _).1
    · rw [hold]
      exact (two_gram_symm_psd _).2

theorem elliptic_residual_eval :
    elliptic_residual 1 1 1 3 ![1] ![5] ![2] = ![7, 2, 5] := by
  funext i
  fin_cases i <;>
    norm_num [elliptic_residual, Fin.append, Fin.addCases]

theorem elliptic_residual_claim_eval :
    elliptic_residual_claim 1 1 1 3 ![1] ![5] ![2] = ![7, 2, 0] := by
  funext i
  fin_cases i <;>
    norm_num [elliptic_residual_claim, Fin.append, Fin.addCases]

/-- C5 counterexample: the claim stacks "the boundary residual
(field − bdy_g)" as the third block; the code stacks the boundary data
`bdy_g` itself.  With `L = I`, `Nd = Nb = 1`, `α = 1`, `m = 3`,
`rhs_f = (1)`, `bdy_g = (5)`, `z = (2)`, the claimed residual is `(7,2,0)`
and it does solve `L·w = claimed residual`, yet the loss computed by the
code is `78 ≠ 53 = ‖(7,2,0)‖²`. -/
theorem C5_counterexample_boundary_block :
    (1 : Matrix (Fin (1 + 1 + 1)) (Fin (1 + 1 + 1)) ℚ).mulVec
        (elliptic_residual_claim 1 1 1 3 ![1] ![5] ![2]) =
      elliptic_residual_claim 1 1 1 3 ![1] ![5] ![2] ∧
    elliptic_loss 1 1 1 1 3 ![1] ![5] ![2] ≠
      Matrix.dotProduct (elliptic_residual_claim 1 1 1 3 ![1] ![5] ![2])
        (elliptic_residual_claim 1 1 1 3 ![1] ![5] ![2]) := by
  constructor
  · rw [Matrix.one_mulVec]
  · have h : elliptic_loss 1 1 1 1 3 ![1] ![5] ![2] =
        Matrix.dotProduct (elliptic_residual 1 1 1 3 ![1] ![5] ![2])
          (elliptic_residual 1 1 1 3 ![1] ![5] ![2]) := by
      unfold elliptic_loss
      rw [jnp_solveVec_one]
    rw [h, elliptic_residual_eval, elliptic_residual_claim_eval]
    simp [Matrix.dotProduct, Fin.sum_univ_three]

/-- C5 (amended): for the elliptic family, `loss z = ‖w‖²` where `w` solves
the system `L·w = raw residual` and the raw residual stacks the
PDE-operator residual `α·z^m − rhs_f`, the field value `z`, and the
boundary data `bdy_g` itself. -/
theorem C5_loss_is_whitened_residual_norm (Nd Nb : ℕ)
    (L : Matrix (Fin (Nd + Nd + Nb)) (Fin (Nd + Nd + Nb)) ℚ)
    (alpha : ℚ) (m : ℕ) (rhs_f : Fin Nd → ℚ) (bdy_g : Fin Nb → ℚ)
    (z : Fin Nd → ℚ) (w : Fin (Nd + Nd + Nb) → ℚ)
    (hL : IsUnit L.det)
    (hw : L.mulVec w = elliptic_residual Nd Nb alpha m rhs_f bdy_g z) :
    elliptic_loss Nd Nb L alpha m rhs_f bdy_g z = Matrix.dotProduct w w := by
  unfold elliptic_loss
  rw [← hw, jnp_solveVec_mulVec L w hL]

/-- Witness for C5 at a concrete input: `L = I`, `w = (7,2,5)`. -/
theorem C5_loss_is_whitened_residual_norm_witness :
    IsUnit (1 : Matrix (Fin (1 + 1 + 1)) (Fin (1 + 1 + 1)) ℚ).det ∧
    (1 : Matrix (Fin (1 + 1 + 1)) (Fin (1 + 1 + 1)) ℚ).mulVec ![7, 2, 5] =
      elliptic_residual 1 1 1 3 ![1] ![5] ![2] ∧
    elliptic_loss 1 1 1 1 3 ![1] ![5] ![2] = Matrix.dotProduct ![7, 2, 5] ![7, 2, 5] :=
  ⟨by simp, by rw [Matrix.one_mulVec, elliptic_residual_eval],
    C5_loss_is_whitened_residual_norm 1 1 1 1 3 ![1] ![5] ![2] ![7, 2, 5]
      (by simp) (by rw [Matrix.one_mulVec, elliptic_residual_eval])⟩

/-- Evaluation of the Gauss-Newton loop state: after folding the body over
`range(1, n+1)` the iterate is the `n`-th iterate, the history is one loss
per iterate `0..n`, and the flagged indices are exactly the iterations with
NaN loss. -/
theorem GN_fold_eval (lossF : List RFq → RFq) (solveStep : List RFq → List RFq)
    (step_size : RFq) (sol0 : List RFq) (n : ℕ) :
    (List.range' 1 n).foldl (GN_body lossF solveStep step_size)
      (sol0, [lossF sol0], if isnan (lossF sol0) then [0] else []) =
    (GN_iter solveStep step_size sol0 n,
     (List.range (n + 1)).map (fun k => lossF (GN_iter solveStep step_size sol0 k)),
     (List.range (n + 1)).filter
       (fun k => isnan (lossF (GN_iter solveStep step_size sol0 k)))) := by
  induction n with
  | zero =>
    cases h : isnan (lossF sol0) <;>
      simp [GN_iter, h, List.filter, List.range_succ, List.range_zero]
  | succ n ih =>
    rw [List.range'_concat, List.foldl_append, ih]
    have h1 : 1 + 1 * n = n + 1 := by omega
    rw [h1]
    simp only [List.foldl_cons, List.foldl_nil, GN_body, GN_iter]
    refine congrArg (Prod.mk _) ?_
    rw [List.range_succ (n + 1), List.map_append, List.filter_append]
    simp only [List.map_cons, List.map_nil, GN_iter]
    refine congrArg (Prod.mk _) ?_
    cases h : isnan (lossF (GN_update solveStep step_size (GN_iter solveStep step_size sol0 n))) <;>
      simp [GN_iter, h, List.filter]

/-- Normal-form result of `GN_method` when started from the random draw. -/
theorem GN_method_rdm (lossF : List RFq → RFq) (solveStep : List RFq → List RFq)
    (alpha : RFq) (m : ℕ) (rhs_f bdy_g : List RFq) (max_iter : ℕ)
    (step_size : RFq) (rng : List RFq) :
    GN_method lossF solveStep alpha m rhs_f bdy_g max_iter step_size
        InitialSol.rdm rng =
      Except.ok
        { init_sol := rng
          loss_hist := (List.range (max_iter + 1)).map
            (fun k => lossF (GN_iter solveStep step_size rng k))
          nan_flags := (List.range (max_iter + 1)).filter
            (fun k => isnan (lossF (GN_iter solveStep step_size rng k)))
          sol_vec := (vSub (vSmul alpha
              (vPow (GN_iter solveStep step_size rng max_iter) m)) rhs_f) ++
            GN_iter solveStep step_size rng max_iter ++ bdy_g
          sol_sampled_pts := GN_iter solveStep step_size rng max_iter } := by
  unfold GN_method
  dsimp only
  rw [GN_fold_eval]

/-- C7: `GN_method` performs exactly `max_iter` iterations, the recorded
loss history has exactly `max_iter + 1` entries — the loss of the initial
draw followed by one loss per iteration — and a NaN loss is flagged (the
diagnostic message) without aborting the loop or raising: the call returns
`Except.ok` for every loss function and every solve step. -/
theorem C7_fixed_budget_and_nan_tolerance (lossF : List RFq → RFq)
    (solveStep : List RFq → List RFq) (alpha : RFq) (m : ℕ)
    (rhs_f bdy_g : List RFq) (max_iter : ℕ) (step_size : RFq)
    (rng : List RFq) :
    ∃ r : GNResult,
      GN_method lossF solveStep alpha m rhs_f bdy_g max_iter step_size
          InitialSol.rdm rng = Except.ok r ∧
      r.loss_hist.length = max_iter + 1 ∧
      r.loss_hist = (List.range (max_iter + 1)).map
        (fun k => lossF (GN_iter solveStep step_size rng k)) ∧
      r.loss_hist.head? = some (lossF rng) ∧
      r.nan_flags = (List.range (max_iter + 1)).filter
        (fun k => isnan (lossF (GN_iter solveStep step_size rng k))) := by
  refine ⟨_, GN_method_rdm lossF solveStep alpha m rhs_f bdy_g max_iter step_size rng,
    ?_, rfl, ?_, rfl⟩
  · simp
  · rw [List.range_succ_eq_map]
    simp [GN_iter]

/-- C6: the claim says every assembled Gram matrix is exactly symmetric.
The interior-interior Burgers block computes
`D_x1_D_y1 − 2ν·D_x1_DD_y2 + ν²·DD_x2_DD_y2`; the middle term is an odd
third derivative (the two cross terms of `(∂_t − ν∂_xx)_x (∂_t − ν∂_xx)_y κ`
cancel instead of doubling), so the entry changes under swapping the two
points and the assembled matrix is not symmetric: with domain points
`(1,0)` and `(0,0)`, Gaussian kernel `σ = 1`, `ν = 1/50`, the entries
`Θ[0][1]` and `Θ[1][0]` differ by `−4ν·exp(−1/2)`. -/
theorem C6_assembled_gram_not_symmetric :
    ∃ T : ℕ → ℕ → ℝ,
      Gram_matrix_assembly (fun k => if k = 0 then ((1 : ℝ), (0 : ℝ)) else ((0 : ℝ), (0 : ℝ)))
        (fun _ => ((0 : ℝ), (0 : ℝ))) 2 0 Eqn.Burgers (KernelSpec.Gaussian 1) (1 / 50) =
        some T ∧
      T 0 1 ≠ T 1 0 := by
  refine ⟨_, rfl, ?_⟩
  simp only [burgersTheta, kernelOf, anisoOps, gauss]
  norm_num
  intro hcon
  have hp : 0 < 1 / 25 * Real.exp (-(1 / 2)) := by positivity
  linarith

/-- C2 counterexample: the claim says the stored ratio equals
`trace(reference block) / trace(that block)` with the value block as the
reference.  On a concrete one-point input the assembled matrix has
`trace Θ[:1,:1] = 1 + 3/2500` (Gaussian `σ = 1`, assembler default
`ν = 1/50`) while the value block `Θ[2:,2:]` has trace `2`, and the code
stores `ratio[0] = trace1/trace4 = 2503/2500`, not the claimed
`2/(2503/2500) = 5000/2503`. -/
theorem C2_counterexample_ratio_orientation :
    ∃ T : ℕ → ℕ → ℝ,
      Gram_matrix_assembly (fun _ => ((0 : ℝ), (0 : ℝ))) (fun _ => ((1 : ℝ), (1 : ℝ)))
          1 1 Eqn.Burgers (KernelSpec.Gaussian 1) (1 / 50) = some T ∧
      (Burgers_Gram_matrix 1 1 (fun _ => ((0 : ℝ), (0 : ℝ))) (fun _ => ((1 : ℝ), (1 : ℝ)))
          (KernelSpec.Gaussian 1) (1 / 100000) NuggetType.adaptive).ratio.head? ≠
        some (sliceTrace T (2 * 1) (1 + 1) / sliceTrace T 0 1) := by
  refine ⟨_, rfl, ?_⟩
  simp only [Burgers_Gram_matrix, Gram_matrix_assembly, Option.getD, sliceTrace,
    Finset.sum_range_one, Finset.sum_range_succ, Finset.sum_range_zero,
    burgersTheta, kernelOf, anisoOps, gauss, List.head?]
  norm_num [Real.exp_zero]

/-- Index evaluation of the adaptive diagonal vector
`concat(r0·1(Nd), r1·1(Nd), 1(Nd+Nb))`. -/
theorem tempDiag_getD (Nd Nb : ℕ) (r0 r1 : ℝ) (i : ℕ) (h : i < 3 * Nd + Nb) :
    (List.replicate Nd r0 ++ List.replicate Nd r1 ++
        List.replicate (Nd + Nb) (1 : ℝ)).getD i 0 =
      if i < Nd then r0 else if i < 2 * Nd then r1 else 1 := by
  rcases lt_or_ge i Nd with h0 | h0
  · rw [if_pos h0, List.append_assoc,
      List.getD_append _ _ _ _ (by simpa using h0)]
    rw [List.getD, List.get?_eq_getElem?, List.getElem?_replicate, if_pos h0]
    rfl
  · rw [if_neg (not_lt.mpr h0), List.append_assoc,
      List.getD_append_right _ _ _ _ (by simpa using h0), List.length_replicate]
    rcases lt_or_ge i (2 * Nd) with h1 | h1
    · rw [if_pos h1]
      have h2 : i - Nd < Nd := by omega
      rw [List.getD_append _ _ _ _ (by simpa using h2)]
      rw [List.getD, List.get?_eq_getElem?, List.getElem?_replicate, if_pos h2]
      rfl
    · rw [if_neg (not_lt.mpr h1)]
      have h2 : Nd ≤ i - Nd := by omega
      rw [List.getD_append_right _ _ _ _ (by simpa using h2), List.length_replicate]
      have h3 : i - Nd - Nd < Nd + Nb := by omega
      rw [List.getD, List.get?_eq_getElem?, List.getElem?_replicate, if_pos h3]
      rfl

/-- C2 (amended): under the adaptive policy the stored `self.ratio` holds,
for each derivative block, `trace(that block) / trace(reference slice)` —
the inverse of the claimed orientation — where the reference slice the code
uses is `Θ[3·Nd:, 3·Nd:]`; and the scaling factor multiplying the unit
diagonal contribution of block `k` is exactly `nugget · ratio[k]`. -/
theorem C2_adaptive_ratio_stored (Nd Nb : ℕ) (Xd Xb : ℕ → ℝ × ℝ)
    (kernel : KernelSpec) (nugget : ℝ) (T : ℕ → ℕ → ℝ)
    (hT : Gram_matrix_assembly Xd Xb Nd Nb Eqn.Burgers kernel (1 / 50) = some T) :
    (Burgers_Gram_matrix Nd Nb Xd Xb kernel nugget NuggetType.adaptive).ratio =
      [sliceTrace T 0 Nd / sliceTrace T (3 * Nd) Nb,
       sliceTrace T Nd Nd / sliceTrace T (3 * Nd) Nb] ∧
    ∀ i, i < 3 * Nd + Nb →
      (Burgers_Gram_matrix Nd Nb Xd Xb kernel nugget NuggetType.adaptive).Theta i i =
        T i i + nugget *
          (if i < Nd then sliceTrace T 0 Nd / sliceTrace T (3 * Nd) Nb
           else if i < 2 * Nd then sliceTrace T Nd Nd / sliceTrace T (3 * Nd) Nb
           else 1) := by
  have hT' : (Gram_matrix_assembly Xd Xb Nd Nb Eqn.Burgers kernel (1 / 50)).getD
      (fun _ _ => 0) = T := by
    rw [hT]
    rfl
  constructor
  · simp only [Burgers_Gram_matrix, hT']
  · intro i hi
    simp only [Burgers_Gram_matrix, hT']
    rw [if_pos trivial, tempDiag_getD Nd Nb _ _ i hi]

/-- Witness for C2 at a concrete input: one domain point `(0,0)`, one
boundary point `(1,1)`, Gaussian `σ = 1`, nugget `1/2`, diagonal index
`i = 0`. -/
theorem C2_adaptive_ratio_stored_witness :
    (Burgers_Gram_matrix 1 1 (fun _ => ((0 : ℝ), (0 : ℝ))) (fun _ => ((1 : ℝ), (1 : ℝ)))
        (KernelSpec.Gaussian 1) (1 / 2) NuggetType.adaptive).ratio =
      [sliceTrace (burgersTheta (kernelOf (KernelSpec.Gaussian 1)) (1 / 50) 1 1
          (fun _ => ((0 : ℝ), (0 : ℝ))) (fun _ => ((1 : ℝ), (1 : ℝ)))) 0 1 /
        sliceTrace (burgersTheta (kernelOf (KernelSpec.Gaussian 1)) (1 / 50) 1 1
          (fun _ => ((0 : ℝ), (0 : ℝ))) (fun _ => ((1 : ℝ), (1 : ℝ)))) (3 * 1) 1,
       sliceTrace (burgersTheta (kernelOf (KernelSpec.Gaussian 1)) (1 / 50) 1 1
          (fun _ => ((0 : ℝ), (0 : ℝ))) (fun _ => ((1 : ℝ), (1 : ℝ)))) 1 1 /
        sliceTrace (burgersTheta (kernelOf (KernelSpec.Gaussian 1)) (1 / 50) 1 1
          (fun _ => ((0 : ℝ), (0 : ℝ))) (fun _ => ((1 : ℝ), (1 : ℝ)))) (3 * 1) 1] ∧
    (Burgers_Gram_matrix 1 1 (fun _ => ((0 : ℝ), (0 : ℝ))) (fun _ => ((1 : ℝ), (1 : ℝ)))
        (KernelSpec.Gaussian 1) (1 / 2) NuggetType.adaptive).Theta 0 0 =
      burgersTheta (kernelOf (KernelSpec.Gaussian 1)) (1 / 50) 1 1
          (fun _ => ((0 : ℝ), (0 : ℝ))) (fun _ => ((1 : ℝ), (1 : ℝ))) 0 0 +
        1 / 2 *
          (if 0 < 1 then
            sliceTrace (burgersTheta (kernelOf (KernelSpec.Gaussian 1)) (1 / 50) 1 1
                (fun _ => ((0 : ℝ), (0 : ℝ))) (fun _ => ((1 : ℝ), (1 : ℝ)))) 0 1 /
              sliceTrace (burgersTheta (kernelOf (KernelSpec.Gaussian 1)) (1 / 50) 1 1
                (fun _ => ((0 : ℝ), (0 : ℝ))) (fun _ => ((1 : ℝ), (1 : ℝ)))) (3 * 1) 1
           else if 0 < 2 * 1 then
            sliceTrace (burgersTheta (kernelOf (KernelSpec.Gaussian 1)) (1 / 50) 1 1
                (fun _ => ((0 : ℝ), (0 : ℝ))) (fun _ => ((1 : ℝ), (1 : ℝ)))) 1 1 /
              sliceTrace (burgersTheta (kernelOf (KernelSpec.Gaussian 1)) (1 / 50) 1 1
                (fun _ => ((0 : ℝ), (0 : ℝ))) (fun _ => ((1 : ℝ), (1 : ℝ)))) (3 * 1) 1
           else 1) :=
  ⟨(C2_adaptive_ratio_stored 1 1 (fun _ => ((0 : ℝ), (0 : ℝ)))
      (fun _ => ((1 : ℝ), (1 : ℝ))) (KernelSpec.Gaussian 1) (1 / 2) _ rfl).1,
   (C2_adaptive_ratio_stored 1 1 (fun _ => ((0 : ℝ), (0 : ℝ)))
      (fun _ => ((1 : ℝ), (1 : ℝ))) (KernelSpec.Gaussian 1) (1 / 2) _ rfl).2 0
     (by norm_num)⟩

theorem gauss_self (s1 s2 x y : ℝ) : gauss s1 s2 (x - x) (y - y) = 1 := by
  simp [gauss]

/-- Every diagonal entry of the assembled Burgers Gram matrix built from a
two-bandwidth Gaussian is nonnegative: the interior blocks evaluate at
coincident points to `1/s₁ + 3ν²/s₂²` and `1/s₂`, the value block to
`exp 0 = 1`, the background to `0`. -/
theorem burgersTheta_aniso_diag_nonneg (a b nu : ℝ) (Nd Nb : ℕ)
    (Xd Xb : ℕ → ℝ × ℝ) (i : ℕ) :
    0 ≤ burgersTheta (anisoOps (a ^ 2) (b ^ 2)) nu Nd Nb Xd Xb i i := by
  simp only [burgersTheta]
  rcases lt_or_ge i Nd with hA | hA
  · rw [if_pos ⟨hA, hA⟩]
    simp only [anisoOps]
    rw [gauss_self]
    simp only [sub_self]
    norm_num
    positivity
  · rcases lt_or_ge i (2 * Nd) with hB | hB
    · rw [if_neg (by omega), if_neg (by omega), if_neg (by omega),
        if_pos ⟨hA, hB, hA, hB⟩]
      simp only [anisoOps]
      rw [gauss_self]
      simp only [sub_self]
      norm_num
      positivity
    · rcases lt_or_ge i (3 * Nd + Nb) with hC | hC
      · rw [if_neg (by omega), if_neg (by omega), if_neg (by omega),
          if_neg (by omega), if_pos ⟨by omega, hC, by omega, hC⟩]
        simp only [anisoOps]
        rw [gauss_self]
        norm_num
      · have k1 : ¬(i < Nd ∧ i < Nd) := by omega
        have k2 : ¬(i < Nd ∧ Nd ≤ i ∧ i < 2 * Nd) := by omega
        have k3 : ¬(Nd ≤ i ∧ i < 2 * Nd ∧ i < Nd) := by omega
        have k4 : ¬(Nd ≤ i ∧ i < 2 * Nd ∧ Nd ≤ i ∧ i < 2 * Nd) := by omega
        have k5 : ¬(2 * Nd ≤ i ∧ i < 3 * Nd + Nb ∧ 2 * Nd ≤ i ∧ i < 3 * Nd + Nb) := by
          omega
        have k6 : ¬(i < Nd ∧ 2 * Nd ≤ i ∧ i < 3 * Nd + Nb) := by omega
        have k7 : ¬(2 * Nd ≤ i ∧ i < 3 * Nd + Nb ∧ i < Nd) := by omega
        have k8 : ¬(Nd ≤ i ∧ i < 2 * Nd ∧ 2 * Nd ≤ i ∧ i < 3 * Nd + Nb) := by omega
        have k9 : ¬(2 * Nd ≤ i ∧ i < 3 * Nd + Nb ∧ Nd ≤ i ∧ i < 2 * Nd) := by omega
        rw [if_neg k1, if_neg k2, if_neg k3, if_neg k4, if_neg k5, if_neg k6,
          if_neg k7, if_neg k8, if_neg k9]

theorem burgersTheta_diag_nonneg (kernel : KernelSpec) (nu : ℝ) (Nd Nb : ℕ)
    (Xd Xb : ℕ → ℝ × ℝ) (i : ℕ) :
    0 ≤ burgersTheta (kernelOf kernel) nu Nd Nb Xd Xb i i := by
  cases kernel with
  | Gaussian sigma => exact burgersTheta_aniso_diag_nonneg sigma sigma nu Nd Nb Xd Xb i
  | anisotropic_Gaussian s1 s2 => exact burgersTheta_aniso_diag_nonneg s1 s2 nu Nd Nb Xd Xb i

theorem sliceTrace_nonneg (kernel : KernelSpec) (nu : ℝ) (Nd Nb : ℕ)
    (Xd Xb : ℕ → ℝ × ℝ) (a len : ℕ) :
    0 ≤ sliceTrace (burgersTheta (kernelOf kernel) nu Nd Nb Xd Xb) a len := by
  apply Finset.sum_nonneg
  intro k _
  exact burgersTheta_diag_nonneg kernel nu Nd Nb Xd Xb (a + k)

/-- C10: under both the identity and the adaptive nugget policy,
`Burgers.Gram_matrix` changes only the diagonal: every off-diagonal entry
of the stored `self.Theta` equals the assembled entry, and every diagonal
perturbation added is nonnegative whenever the nugget is nonnegative. -/
theorem C10_nugget_only_diagonal_nonneg (Nd Nb : ℕ) (Xd Xb : ℕ → ℝ × ℝ)
    (kernel : KernelSpec) (nugget : ℝ) (hn : 0 ≤ nugget) (T : ℕ → ℕ → ℝ)
    (hT : Gram_matrix_assembly Xd Xb Nd Nb Eqn.Burgers kernel (1 / 50) = some T) :
    (∀ i j, i ≠ j →
      (Burgers_Gram_matrix Nd Nb Xd Xb kernel nugget NuggetType.adaptive).Theta i j
        = T i j) ∧
    (∀ i j, i ≠ j →
      (Burgers_Gram_matrix Nd Nb Xd Xb kernel nugget NuggetType.identity).Theta i j
        = T i j) ∧
    (∀ i, 0 ≤
      (Burgers_Gram_matrix Nd Nb Xd Xb kernel nugget NuggetType.adaptive).Theta i i
        - T i i) ∧
    (∀ i, 0 ≤
      (Burgers_Gram_matrix Nd Nb Xd Xb kernel nugget NuggetType.identity).Theta i i
        - T i i) := by
  have hT' : (Gram_matrix_assembly Xd Xb Nd Nb Eqn.Burgers kernel (1 / 50)).getD
      (fun _ _ => 0) = T := by
    rw [hT]
    rfl
  have hTval : T = burgersTheta (kernelOf kernel) (1 / 50) Nd Nb Xd Xb := by
    have : Gram_matrix_assembly Xd Xb Nd Nb Eqn.Burgers kernel (1 / 50) =
        some (burgersTheta (kernelOf kernel) (1 / 50) Nd Nb Xd Xb) := rfl
    rw [this] at hT
    exact (Option.some.inj hT).symm
  refine ⟨?_, ?_, ?_, ?_⟩
  · intro i j hij
    simp only [Burgers_Gram_matrix, hT']
    rw [if_neg (by simp [hij])]
    ring
  · intro i j hij
    simp only [Burgers_Gram_matrix, hT']
    rw [if_neg (by simp [hij])]
    ring
  · intro i
    simp only [Burgers_Gram_matrix, hT']
    rw [if_pos trivial]
    have hgetD : 0 ≤ (List.replicate Nd
        (sliceTrace T 0 Nd / sliceTrace T (3 * Nd) Nb) ++
        List.replicate Nd (sliceTrace T Nd Nd / sliceTrace T (3 * Nd) Nb) ++
        List.replicate (Nd + Nb) (1 : ℝ)).getD i 0 := by
      rcases lt_or_ge i (3 * Nd + Nb) with h | h
      · rw [tempDiag_getD Nd Nb _ _ i h]
        have t1 : 0 ≤ sliceTrace T 0 Nd := by
          rw [hTval]; exact sliceTrace_nonneg kernel (1 / 50) Nd Nb Xd Xb 0 Nd
        have t2 : 0 ≤ sliceTrace T Nd Nd := by
          rw [hTval]; exact sliceTrace_nonneg kernel (1 / 50) Nd Nb Xd Xb Nd Nd
        have t4 : 0 ≤ sliceTrace T (3 * Nd) Nb := by
          rw [hTval]; exact sliceTrace_nonneg kernel (1 / 50) Nd Nb Xd Xb (3 * Nd) Nb
        split_ifs
        · exact div_nonneg t1 t4
        · exact div_nonneg t2 t4
        · norm_num
      · rw [List.getD_eq_default]
        simp only [List.length_append, List.length_replicate]
        omega
    have := mul_nonneg hn hgetD
    linarith
  · intro i
    simp only [Burgers_Gram_matrix, hT']
    rcases lt_or_ge i (3 * Nd + Nb) with h | h
    · rw [if_pos ⟨trivial, h⟩]
      nlinarith
    · rw [if_neg (by omega)]
      ring_nf
      nlinarith

/-- Witness for C10 at a concrete input (one domain point, one boundary
point, Gaussian `σ = 1`, nugget `1/2`). -/
theorem C10_nugget_only_diagonal_nonneg_witness :
    (0 : ℝ) ≤ 1 / 2 ∧
    Gram_matrix_assembly (fun _ => ((0 : ℝ), (0 : ℝ))) (fun _ => ((1 : ℝ), (1 : ℝ)))
        1 1 Eqn.Burgers (KernelSpec.Gaussian 1) (1 / 50) =
      some (burgersTheta (kernelOf (KernelSpec.Gaussian 1)) (1 / 50) 1 1
        (fun _ => ((0 : ℝ), (0 : ℝ))) (fun _ => ((1 : ℝ), (1 : ℝ)))) ∧
    ((∀ i j, i ≠ j →
      (Burgers_Gram_matrix 1 1 (fun _ => ((0 : ℝ), (0 : ℝ)))
          (fun _ => ((1 : ℝ), (1 : ℝ))) (KernelSpec.Gaussian 1) (1 / 2)
          NuggetType.adaptive).Theta i j =
        burgersTheta (kernelOf (KernelSpec.Gaussian 1)) (1 / 50) 1 1
          (fun _ => ((0 : ℝ), (0 : ℝ))) (fun _ => ((1 : ℝ), (1 : ℝ))) i j) ∧
    (∀ i j, i ≠ j →
      (Burgers_Gram_matrix 1 1 (fun _ => ((0 : ℝ), (0 : ℝ)))
          (fun _ => ((1 : ℝ), (1 : ℝ))) (KernelSpec.Gaussian 1) (1 / 2)
          NuggetType.identity).Theta i j =
        burgersTheta (kernelOf (KernelSpec.Gaussian 1)) (1 / 50) 1 1
          (fun _ => ((0 : ℝ), (0 : ℝ))) (fun _ => ((1 : ℝ), (1 : ℝ))) i j) ∧
    (∀ i, 0 ≤
      (Burgers_Gram_matrix 1 1 (fun _ => ((0 : ℝ), (0 : ℝ)))
          (fun _ => ((1 : ℝ), (1 : ℝ))) (KernelSpec.Gaussian 1) (1 / 2)
          NuggetType.adaptive).Theta i i -
        burgersTheta (kernelOf (KernelSpec.Gaussian 1)) (1 / 50) 1 1
          (fun _ => ((0 : ℝ), (0 : ℝ))) (fun _ => ((1 : ℝ), (1 : ℝ))) i i) ∧
    (∀ i, 0 ≤
      (Burgers_Gram_matrix 1 1 (fun _ => ((0 : ℝ), (0 : ℝ)))
          (fun _ => ((1 : ℝ), (1 : ℝ))) (KernelSpec.Gaussian 1) (1 / 2)
          NuggetType.identity).Theta i i -
        burgersTheta (kernelOf (KernelSpec.Gaussian 1)) (1 / 50) 1 1
          (fun _ => ((0 : ℝ), (0 : ℝ))) (fun _ => ((1 : ℝ), (1 : ℝ))) i i)) :=
  ⟨by norm_num, rfl,
    C10_nugget_only_diagonal_nonneg 1 1 (fun _ => ((0 : ℝ), (0 : ℝ)))
      (fun _ => ((1 : ℝ), (1 : ℝ))) (KernelSpec.Gaussian 1) (1 / 2) (by norm_num) _ rfl⟩

end S2P
